import Mathlib

/-!
Shallow embedding of OpenTTD's asynchronous TCP connection subsystem
(`src/network/core/tcp_connect.cpp`): the `TCPConnecter` attempt object,
the global registry `_tcp_connecters`, and the operations
`TCPConnecter::TCPConnecter` (construction/registration), `Connect`,
`ThreadEntry`, `CheckCallbacks` (the per-tick poll) and `KillAll`.

The registry is modelled as a `List TCPConnecter`; the side effects the
dispatcher performs (erasing a registry entry, `closesocket`, invoking the
`OnConnect`/`OnFailure` handlers, `delete`) are recorded as a trace of `Op`
events in execution order, so that exactly-once delivery, suppression for
killed attempts, and ordering can be stated and proved.
-/

set_option autoImplicit false

/-- Modelled from the spec: socket handles. `INVALID_SOCKET` (from the
platform headers, not under `src/`) is the distinguished invalid value; every
other handle is a valid OS transport endpoint. -/
inductive Socket where
  | invalid : Socket
  | valid : Nat → Socket
deriving DecidableEq

/-- One outbound connection attempt (`class TCPConnecter`). The boolean
fields `connected`, `aborted`, `killed` and the socket `sock` are exactly the
fields initialised by the constructor; `address` abstracts the immutable
`NetworkAddress`. The field `id` models the identity of the heap object (the
C++ pointer value stored in the registry). -/
structure TCPConnecter where
  id : Nat
  connected : Bool
  aborted : Bool
  killed : Bool
  sock : Socket
  address : Nat
deriving DecidableEq

/-- Modelled from the spec: the observable side effects of the dispatcher.
The `OnConnect`/`OnFailure` outcome handlers are virtual methods declared in
`tcp.h` (not under `src/`), so handler invocations are recorded as trace
events carrying the identity of the attempt (and the socket payload for
`OnConnect`); `erase`, `close` (`closesocket`) and `delete` record the
registry removal and resource reclamation steps. -/
inductive Op where
  | erase : Nat → Op
  | close : Nat → Op
  | callOnConnect : Nat → Socket → Op
  | callOnFailure : Nat → Op
  | delete : Nat → Op
deriving DecidableEq

/-- The freshly constructed attempt: `connected(false), aborted(false),
killed(false), sock(INVALID_SOCKET), address(address)` as in the
member-initialiser list of `TCPConnecter::TCPConnecter`. -/
def TCPConnecter.init (id address : Nat) : TCPConnecter :=
  ⟨id, false, false, false, Socket.invalid, address⟩

/-- `TCPConnecter::Connect`: store the result of `address.Connect()` into
`sock`; if it is `INVALID_SOCKET` set `aborted`, otherwise set `connected`.
The blocking resolver/connector collaborator is abstracted as the
`connectResult` argument. -/
def TCPConnecter.Connect (c : TCPConnecter) (connectResult : Socket) : TCPConnecter :=
  if connectResult = Socket.invalid then
    { c with sock := connectResult, aborted := true }
  else
    { c with sock := connectResult, connected := true }

/-- `TCPConnecter::ThreadEntry`: the worker entry point just runs `Connect`
on the attempt passed as `param`. -/
def TCPConnecter.ThreadEntry (c : TCPConnecter) (connectResult : Socket) : TCPConnecter :=
  TCPConnecter.Connect c connectResult

/-- The constructor `TCPConnecter::TCPConnecter` as seen from the registry:
the fresh attempt is appended to `_tcp_connecters`; then, if
`ThreadObject::New` fails (`threadOk = false`), `Connect` runs synchronously
on the calling thread, so the registered entry is already terminal when the
constructor returns. When `threadOk = true` the entry is still `Pending`
(the worker runs later). -/
def TCPConnecter.create (reg : List TCPConnecter) (id address : Nat)
    (threadOk : Bool) (connectResult : Socket) : List TCPConnecter :=
  if threadOk then
    reg ++ [TCPConnecter.init id address]
  else
    reg ++ [TCPConnecter.ThreadEntry (TCPConnecter.init id address) connectResult]

/-- The `closesocket` guard in the killed branch of `CheckCallbacks`:
`if (cur->sock != INVALID_SOCKET) closesocket(cur->sock);`. -/
def closeOps : Socket → List Op
  | Socket.invalid => []
  | Socket.valid h => [Op.close h]

/-- `TCPConnecter::CheckCallbacks`, the per-tick poll. The loop examines the
element under the iterator: a terminal killed attempt is erased, its socket
closed if valid, and deleted with no handler call; a connected attempt is
erased, `OnConnect(sock)` invoked, and deleted; an aborted attempt is erased,
`OnFailure()` invoked, and deleted; otherwise the iterator advances. After an
erase the loop continues without advancing, so the element now under the
iterator is examined next; erasing the head of `cur :: rest` leaves `rest`
(the registry is an ordered collection and removal keeps the remaining
entries in order). Returns the registry after the call and the trace of
side effects in execution order. -/
def TCPConnecter.CheckCallbacks : List TCPConnecter → List TCPConnecter × List Op
  | [] => ([], [])
  | cur :: rest =>
    if (cur.connected || cur.aborted) && cur.killed then
      let r := TCPConnecter.CheckCallbacks rest
      (r.1, Op.erase cur.id :: closeOps cur.sock ++ Op.delete cur.id :: r.2)
    else if cur.connected then
      let r := TCPConnecter.CheckCallbacks rest
      (r.1, Op.erase cur.id :: Op.callOnConnect cur.id cur.sock :: Op.delete cur.id :: r.2)
    else if cur.aborted then
      let r := TCPConnecter.CheckCallbacks rest
      (r.1, Op.erase cur.id :: Op.callOnFailure cur.id :: Op.delete cur.id :: r.2)
    else
      let r := TCPConnecter.CheckCallbacks rest
      (cur :: r.1, r.2)

/-- `TCPConnecter::KillAll`: set `killed = true` on every registered attempt,
touching nothing else. -/
def TCPConnecter.KillAll (reg : List TCPConnecter) : List TCPConnecter :=
  reg.map (fun c => { c with killed := true })

/-- The trace segment `CheckCallbacks` emits for one examined attempt. -/
def reapOps (c : TCPConnecter) : List Op :=
  if (c.connected || c.aborted) && c.killed then
    Op.erase c.id :: closeOps c.sock ++ [Op.delete c.id]
  else if c.connected then
    [Op.erase c.id, Op.callOnConnect c.id c.sock, Op.delete c.id]
  else if c.aborted then
    [Op.erase c.id, Op.callOnFailure c.id, Op.delete c.id]
  else []

/-- Does this trace event invoke an outcome handler of the attempt with
identity `i`? -/
def Op.isCallFor (i : Nat) : Op → Bool
  | Op.callOnConnect j _ => j == i
  | Op.callOnFailure j => j == i
  | _ => false

/-- Does this trace event erase the registry entry of the attempt with
identity `i`? -/
def Op.isEraseFor (i : Nat) : Op → Bool
  | Op.erase j => j == i
  | _ => false

/-- The identities of the attempts whose outcome handlers fire, in the order
the handlers are invoked. -/
def notifiedIds : List Op → List Nat
  | [] => []
  | Op.callOnConnect i _ :: t => i :: notifiedIds t
  | Op.callOnFailure i :: t => i :: notifiedIds t
  | _ :: t => notifiedIds t

theorem CheckCallbacks_cons (cur : TCPConnecter) (rest : List TCPConnecter) :
    TCPConnecter.CheckCallbacks (cur :: rest)
      = (if (cur.connected || cur.aborted) = true then
            (TCPConnecter.CheckCallbacks rest).1
          else cur :: (TCPConnecter.CheckCallbacks rest).1,
         reapOps cur ++ (TCPConnecter.CheckCallbacks rest).2) := by
  cases hc : cur.connected <;> cases ha : cur.aborted <;> cases hk : cur.killed <;>
    simp [TCPConnecter.CheckCallbacks, reapOps, hc, ha, hk]

theorem CheckCallbacks_fst (reg : List TCPConnecter) :
    (TCPConnecter.CheckCallbacks reg).1
      = reg.filter (fun c => !(c.connected || c.aborted)) := by
  induction reg with
  | nil => rfl
  | cons cur rest ih =>
    rw [CheckCallbacks_cons]
    cases hc : cur.connected <;> cases ha : cur.aborted <;>
      simp [List.filter_cons, hc, ha, ih]

theorem countP_reapOps_call_zero (c : TCPConnecter) (i : Nat) (h : c.id ≠ i) :
    (reapOps c).countP (Op.isCallFor i) = 0 := by
  cases hs : c.sock <;> cases hc : c.connected <;> cases ha : c.aborted <;>
    cases hk : c.killed <;>
    simp [reapOps, closeOps, hs, hc, ha, hk, Op.isCallFor, List.countP_cons, h]

theorem countP_reapOps_erase_zero (c : TCPConnecter) (i : Nat) (h : c.id ≠ i) :
    (reapOps c).countP (Op.isEraseFor i) = 0 := by
  cases hs : c.sock <;> cases hc : c.connected <;> cases ha : c.aborted <;>
    cases hk : c.killed <;>
    simp [reapOps, closeOps, hs, hc, ha, hk, Op.isEraseFor, List.countP_cons, h]

theorem countP_reapOps_delete_zero (c : TCPConnecter) (i : Nat) (h : c.id ≠ i) :
    (reapOps c).countP (fun op => op == Op.delete i) = 0 := by
  cases hs : c.sock <;> cases hc : c.connected <;> cases ha : c.aborted <;>
    cases hk : c.killed <;>
    simp [reapOps, closeOps, hs, hc, ha, hk, List.countP_cons, h]

theorem CheckCallbacks_countP_call_zero (reg : List TCPConnecter) (i : Nat)
    (h : i ∉ reg.map TCPConnecter.id) :
    (TCPConnecter.CheckCallbacks reg).2.countP (Op.isCallFor i) = 0 := by
  induction reg with
  | nil => rfl
  | cons cur rest ih =>
    simp only [List.map_cons, List.mem_cons, not_or] at h
    rw [CheckCallbacks_cons]
    simp [List.countP_append, countP_reapOps_call_zero cur i (Ne.symm h.1), ih h.2]

theorem CheckCallbacks_countP_erase_zero (reg : List TCPConnecter) (i : Nat)
    (h : i ∉ reg.map TCPConnecter.id) :
    (TCPConnecter.CheckCallbacks reg).2.countP (Op.isEraseFor i) = 0 := by
  induction reg with
  | nil => rfl
  | cons cur rest ih =>
    simp only [List.map_cons, List.mem_cons, not_or] at h
    rw [CheckCallbacks_cons]
    simp [List.countP_append, countP_reapOps_erase_zero cur i (Ne.symm h.1), ih h.2]

theorem CheckCallbacks_countP_delete_zero (reg : List TCPConnecter) (i : Nat)
    (h : i ∉ reg.map TCPConnecter.id) :
    (TCPConnecter.CheckCallbacks reg).2.countP (fun op => op == Op.delete i) = 0 := by
  induction reg with
  | nil => rfl
  | cons cur rest ih =>
    simp only [List.map_cons, List.mem_cons, not_or] at h
    rw [CheckCallbacks_cons]
    simp [List.countP_append, countP_reapOps_delete_zero cur i (Ne.symm h.1), ih h.2]

theorem CheckCallbacks_trace_split (reg : List TCPConnecter) (c : TCPConnecter)
    (hmem : c ∈ reg) (hnodup : (reg.map TCPConnecter.id).Nodup) :
    ∃ pre post,
      (TCPConnecter.CheckCallbacks reg).2 = pre ++ reapOps c ++ post
      ∧ pre.countP (Op.isCallFor c.id) = 0 ∧ post.countP (Op.isCallFor c.id) = 0
      ∧ pre.countP (Op.isEraseFor c.id) = 0 ∧ post.countP (Op.isEraseFor c.id) = 0
      ∧ pre.countP (fun op => op == Op.delete c.id) = 0
      ∧ post.countP (fun op => op == Op.delete c.id) = 0 := by
  induction reg with
  | nil => cases hmem
  | cons cur rest ih =>
    simp only [List.map_cons, List.nodup_cons] at hnodup
    rcases List.mem_cons.mp hmem with rfl | hmem2
    · refine ⟨[], (TCPConnecter.CheckCallbacks rest).2, ?_, by simp,
        CheckCallbacks_countP_call_zero rest c.id hnodup.1, by simp,
        CheckCallbacks_countP_erase_zero rest c.id hnodup.1, by simp,
        CheckCallbacks_countP_delete_zero rest c.id hnodup.1⟩
      rw [CheckCallbacks_cons]
      simp
    · have hne : cur.id ≠ c.id := by
        intro hh
        exact hnodup.1 (hh ▸ List.mem_map_of_mem TCPConnecter.id hmem2)
      obtain ⟨pre, post, heq, h1, h2, h3, h4, h5, h6⟩ := ih hmem2 hnodup.2
      refine ⟨reapOps cur ++ pre, post, ?_, ?_, h2, ?_, h4, ?_, h6⟩
      · rw [CheckCallbacks_cons]
        simp [heq]
      · simp [List.countP_append, h1, countP_reapOps_call_zero cur c.id hne]
      · simp [List.countP_append, h3, countP_reapOps_erase_zero cur c.id hne]
      · simp [List.countP_append, h5, countP_reapOps_delete_zero cur c.id hne]

theorem terminal_not_in_fst (reg : List TCPConnecter) (c : TCPConnecter)
    (hmem : c ∈ reg) (hnodup : (reg.map TCPConnecter.id).Nodup)
    (hterm : c.connected = true ∨ c.aborted = true) :
    c.id ∉ ((TCPConnecter.CheckCallbacks reg).1.map TCPConnecter.id) := by
  rw [CheckCallbacks_fst]
  intro hin
  obtain ⟨d, hd, hdid⟩ := List.mem_map.mp hin
  have hdf := List.mem_filter.mp hd
  have hdc : d = c := List.inj_on_of_nodup_map hnodup hdf.1 hmem hdid
  subst hdc
  rcases hterm with hc | ha
  · simp [hc] at hdf
  · simp [ha] at hdf

/-- C1: a poll call delivers exactly one handler notification for every
terminal attempt that is not killed — `OnConnect` with the attempt's socket
when it connected, `OnFailure` when it aborted — and erases and deletes the
attempt, which is no longer registered afterwards. -/
theorem checkCallbacks_notifies_exactly_once
    (reg : List TCPConnecter) (c : TCPConnecter)
    (hmem : c ∈ reg) (hnodup : (reg.map TCPConnecter.id).Nodup)
    (hterm : c.connected = true ∨ c.aborted = true) (hkill : c.killed = false) :
    (TCPConnecter.CheckCallbacks reg).2.countP (Op.isCallFor c.id) = 1
    ∧ (∃ pre post, (TCPConnecter.CheckCallbacks reg).2
        = pre ++ Op.erase c.id
            :: (if c.connected then Op.callOnConnect c.id c.sock else Op.callOnFailure c.id)
            :: Op.delete c.id :: post)
    ∧ c.id ∉ ((TCPConnecter.CheckCallbacks reg).1.map TCPConnecter.id) := by
  obtain ⟨pre, post, heq, h1, h2, h3, h4, h5, h6⟩ :=
    CheckCallbacks_trace_split reg c hmem hnodup
  have hreap : reapOps c
      = [Op.erase c.id,
         (if c.connected then Op.callOnConnect c.id c.sock else Op.callOnFailure c.id),
         Op.delete c.id] := by
    rcases hterm with hc | ha
    · simp [reapOps, hc, hkill]
    · cases hc2 : c.connected
      · simp [reapOps, hc2, ha, hkill]
      · simp [reapOps, hc2, hkill]
  refine ⟨?_, ⟨pre, post, by rw [heq, hreap]; simp⟩,
    terminal_not_in_fst reg c hmem hnodup hterm⟩
  rw [heq, hreap]
  cases hc2 : c.connected <;>
    simp [List.countP_append, List.countP_cons, h1, h2, Op.isCallFor, hc2]

/-- C2: a poll call reaps every terminal killed attempt silently: it erases
the attempt, closes its socket when the socket is valid, and deletes it,
and no handler notification for that attempt appears anywhere in the trace. -/
theorem checkCallbacks_killed_silent
    (reg : List TCPConnecter) (c : TCPConnecter)
    (hmem : c ∈ reg) (hnodup : (reg.map TCPConnecter.id).Nodup)
    (hterm : c.connected = true ∨ c.aborted = true) (hkill : c.killed = true) :
    (TCPConnecter.CheckCallbacks reg).2.countP (Op.isCallFor c.id) = 0
    ∧ (∃ pre post, (TCPConnecter.CheckCallbacks reg).2
        = pre ++ Op.erase c.id :: closeOps c.sock ++ Op.delete c.id :: post)
    ∧ c.id ∉ ((TCPConnecter.CheckCallbacks reg).1.map TCPConnecter.id) := by
  obtain ⟨pre, post, heq, h1, h2, h3, h4, h5, h6⟩ :=
    CheckCallbacks_trace_split reg c hmem hnodup
  have hreap : reapOps c = Op.erase c.id :: closeOps c.sock ++ [Op.delete c.id] := by
    rcases hterm with hc | ha
    · simp [reapOps, hc, hkill]
    · simp [reapOps, ha, hkill]
  refine ⟨?_, ⟨pre, post, by rw [heq, hreap]; simp⟩,
    terminal_not_in_fst reg c hmem hnodup hterm⟩
  rw [heq, hreap]
  cases hs : c.sock <;>
    simp [List.countP_append, List.countP_cons, h1, h2, Op.isCallFor, closeOps, hs]

/-- C3: a poll call leaves every pending attempt alone, killed or not: the
attempt is still registered afterwards and the trace contains no erase, no
delete and no handler invocation for it. -/
theorem checkCallbacks_pending_untouched
    (reg : List TCPConnecter) (c : TCPConnecter)
    (hmem : c ∈ reg) (hnodup : (reg.map TCPConnecter.id).Nodup)
    (hconn : c.connected = false) (habort : c.aborted = false) :
    c ∈ (TCPConnecter.CheckCallbacks reg).1
    ∧ (TCPConnecter.CheckCallbacks reg).2.countP (Op.isEraseFor c.id) = 0
    ∧ (TCPConnecter.CheckCallbacks reg).2.countP (fun op => op == Op.delete c.id) = 0
    ∧ (TCPConnecter.CheckCallbacks reg).2.countP (Op.isCallFor c.id) = 0 := by
  obtain ⟨pre, post, heq, h1, h2, h3, h4, h5, h6⟩ :=
    CheckCallbacks_trace_split reg c hmem hnodup
  have hreap : reapOps c = [] := by simp [reapOps, hconn, habort]
  refine ⟨?_, ?_, ?_, ?_⟩
  · rw [CheckCallbacks_fst]
    exact List.mem_filter.mpr ⟨hmem, by simp [hconn, habort]⟩
  · rw [heq, hreap]
    simp [List.countP_append, h3, h4]
  · rw [heq, hreap]
    simp [List.countP_append, h5, h6]
  · rw [heq, hreap]
    simp [List.countP_append, h1, h2]

theorem notifiedIds_append (s t : List Op) :
    notifiedIds (s ++ t) = notifiedIds s ++ notifiedIds t := by
  induction s with
  | nil => rfl
  | cons op s ih => cases op <;> simp [notifiedIds, ih]

theorem notifiedIds_reapOps (c : TCPConnecter) :
    notifiedIds (reapOps c)
      = if ((c.connected || c.aborted) && !c.killed) = true then [c.id] else [] := by
  cases hs : c.sock <;> cases hc : c.connected <;> cases ha : c.aborted <;>
    cases hk : c.killed <;>
    simp [reapOps, closeOps, notifiedIds, hs, hc, ha, hk]

theorem CheckCallbacks_notifiedIds (reg : List TCPConnecter) :
    notifiedIds (TCPConnecter.CheckCallbacks reg).2
      = (reg.filter (fun c => (c.connected || c.aborted) && !c.killed)).map
          TCPConnecter.id := by
  induction reg with
  | nil => rfl
  | cons cur rest ih =>
    rw [CheckCallbacks_cons]
    simp only [notifiedIds_append, notifiedIds_reapOps, ih]
    cases hc : cur.connected <;> cases ha : cur.aborted <;> cases hk : cur.killed <;>
      simp [List.filter_cons, hc, ha, hk]

theorem killAll_killed_map (reg : List TCPConnecter) :
    (TCPConnecter.KillAll reg).map TCPConnecter.killed
      = List.replicate reg.length true := by
  induction reg with
  | nil => rfl
  | cons cur rest ih => simpa [TCPConnecter.KillAll, List.replicate_succ] using ih

theorem killAll_frame (reg : List TCPConnecter) :
    (TCPConnecter.KillAll reg).map
        (fun c => (c.id, c.connected, c.aborted, c.sock, c.address))
      = reg.map (fun c => (c.id, c.connected, c.aborted, c.sock, c.address)) := by
  induction reg with
  | nil => rfl
  | cons cur rest ih => simp [TCPConnecter.KillAll]

/-- C4: `KillAll` sets the killed flag on every registered attempt and
changes nothing else — every other field of every attempt, and the length
and order of the registry, are preserved — and it is a no-op on an empty
registry. -/
theorem killAll_marks_all_and_nothing_else (reg : List TCPConnecter) :
    (TCPConnecter.KillAll reg).map TCPConnecter.killed
        = List.replicate reg.length true
    ∧ (TCPConnecter.KillAll reg).map
          (fun c => (c.id, c.connected, c.aborted, c.sock, c.address))
        = reg.map (fun c => (c.id, c.connected, c.aborted, c.sock, c.address))
    ∧ TCPConnecter.KillAll [] = [] :=
  ⟨killAll_killed_map reg, killAll_frame reg, rfl⟩

/-- C5: within one poll call the outcome handlers fire in registry
(insertion) order: the sequence of notified attempt identities equals the
identities of the terminal, unkilled attempts in registry order. -/
theorem checkCallbacks_notification_order (reg : List TCPConnecter) :
    notifiedIds (TCPConnecter.CheckCallbacks reg).2
      = (reg.filter (fun c => (c.connected || c.aborted) && !c.killed)).map
          TCPConnecter.id :=
  CheckCallbacks_notifiedIds reg

/-- C6: when the thread-spawning primitive fails, the constructor runs
`Connect` synchronously before returning: the new attempt is registered at
the end of the registry with a terminal outcome already assigned (aborted
exactly when the connect result is invalid), so the very next poll reaps it
and delivers its notification. -/
theorem create_thread_failure_synchronous (reg : List TCPConnecter)
    (id address : Nat) (r : Socket) :
    TCPConnecter.create reg id address false r
        = reg ++ [TCPConnecter.Connect (TCPConnecter.init id address) r]
    ∧ ((TCPConnecter.Connect (TCPConnecter.init id address) r).connected = true
        ∨ (TCPConnecter.Connect (TCPConnecter.init id address) r).aborted = true)
    ∧ (TCPConnecter.Connect (TCPConnecter.init id address) Socket.invalid).aborted = true
    ∧ (∀ h : Nat,
        (TCPConnecter.Connect (TCPConnecter.init id address) (Socket.valid h)).connected
          = true)
    ∧ (TCPConnecter.CheckCallbacks (TCPConnecter.create reg id address false r)).1
        = (TCPConnecter.CheckCallbacks reg).1
    ∧ notifiedIds
          (TCPConnecter.CheckCallbacks (TCPConnecter.create reg id address false r)).2
        = notifiedIds (TCPConnecter.CheckCallbacks reg).2 ++ [id] := by
  rcases r with _ | h2 <;>
    simp [TCPConnecter.create, TCPConnecter.ThreadEntry, TCPConnecter.Connect,
      TCPConnecter.init, CheckCallbacks_fst, CheckCallbacks_notifiedIds,
      List.filter_append]

/-- C7: a fresh attempt has an invalid socket and a pending outcome, and
after the worker's `Connect` the socket is invalid exactly when the attempt
is not connected, and the attempt is aborted exactly when no socket was
retained. -/
theorem socket_valid_iff_connected (id address : Nat) (r : Socket) :
    (TCPConnecter.init id address).sock = Socket.invalid
    ∧ (TCPConnecter.init id address).connected = false
    ∧ (TCPConnecter.init id address).aborted = false
    ∧ ((TCPConnecter.Connect (TCPConnecter.init id address) r).sock = Socket.invalid
        ↔ (TCPConnecter.Connect (TCPConnecter.init id address) r).connected = false)
    ∧ ((TCPConnecter.Connect (TCPConnecter.init id address) r).aborted = true
        ↔ (TCPConnecter.Connect (TCPConnecter.init id address) r).sock
            = Socket.invalid) := by
  rcases r with _ | h <;> simp [TCPConnecter.init, TCPConnecter.Connect]

/-- C8: the outcome is written exactly once: a fresh attempt is pending, a
single run of the worker entry point sets exactly one of the two terminal
flags, and neither `KillAll` nor `CheckCallbacks` ever alters the outcome
fields of any attempt (`KillAll` preserves them; `CheckCallbacks` keeps
exactly the pending attempts, unchanged). -/
theorem outcome_assigned_exactly_once (id address : Nat) (r : Socket)
    (reg : List TCPConnecter) :
    (TCPConnecter.init id address).connected = false
    ∧ (TCPConnecter.init id address).aborted = false
    ∧ (TCPConnecter.ThreadEntry (TCPConnecter.init id address) r).connected
        = !(TCPConnecter.ThreadEntry (TCPConnecter.init id address) r).aborted
    ∧ (TCPConnecter.KillAll reg).map (fun c => (c.connected, c.aborted))
        = reg.map (fun c => (c.connected, c.aborted))
    ∧ (TCPConnecter.CheckCallbacks reg).1
        = reg.filter (fun c => !(c.connected || c.aborted)) := by
  refine ⟨rfl, rfl, ?_, ?_, CheckCallbacks_fst reg⟩
  · rcases r with _ | h <;>
      simp [TCPConnecter.ThreadEntry, TCPConnecter.Connect, TCPConnecter.init]
  · induction reg with
    | nil => rfl
    | cons cur rest ih => simp [TCPConnecter.KillAll]

/-- C9: a single poll call reaps every attempt that is terminal at the start
of the call and nothing else: the registry afterwards is exactly the
sublist of pending attempts, so no registered attempt is skipped by the
scan. -/
theorem checkCallbacks_reaps_all_terminal (reg : List TCPConnecter) :
    (TCPConnecter.CheckCallbacks reg).1
      = reg.filter (fun c => !(c.connected || c.aborted)) :=
  CheckCallbacks_fst reg

theorem CheckCallbacks_snd_cons (cur : TCPConnecter) (rest : List TCPConnecter) :
    (TCPConnecter.CheckCallbacks (cur :: rest)).2
      = reapOps cur ++ (TCPConnecter.CheckCallbacks rest).2 := by
  rw [CheckCallbacks_cons]

/-- Remove from the registry the entry of the attempt with identity `i`: the
effect of an `Op.erase i` trace event on the registry. -/
def eraseById (i : Nat) : List TCPConnecter → List TCPConnecter
  | [] => []
  | c :: rest => if c.id = i then rest else c :: eraseById i rest

/-- The effect of one trace event on the registry: only `erase` mutates the
registry structure. -/
def applyOp (reg : List TCPConnecter) : Op → List TCPConnecter
  | Op.erase i => eraseById i reg
  | _ => reg

/-- Replay a prefix of the poll's trace on the registry, giving the registry
contents as the dispatcher has left them at that point of the call. -/
def replay (reg : List TCPConnecter) (t : List Op) : List TCPConnecter :=
  t.foldl applyOp reg

theorem eraseById_sublist (i : Nat) (l : List TCPConnecter) :
    (eraseById i l).Sublist l := by
  induction l with
  | nil => simp [eraseById]
  | cons c rest ih =>
    by_cases h : c.id = i
    · simp [eraseById, h]
    · simpa [eraseById, h] using ih.cons₂ c

theorem applyOp_sublist (reg : List TCPConnecter) (op : Op) :
    (applyOp reg op).Sublist reg := by
  cases op <;> simp [applyOp, eraseById_sublist]

theorem replay_sublist (reg : List TCPConnecter) (t : List Op) :
    (replay reg t).Sublist reg := by
  induction t generalizing reg with
  | nil => simp [replay]
  | cons op t ih => exact (ih (applyOp reg op)).trans (applyOp_sublist reg op)

theorem not_mem_eraseById (i : Nat) (l : List TCPConnecter)
    (hnodup : (l.map TCPConnecter.id).Nodup) :
    i ∉ (eraseById i l).map TCPConnecter.id := by
  induction l with
  | nil => simp [eraseById]
  | cons c rest ih =>
    simp only [List.map_cons, List.nodup_cons] at hnodup
    by_cases h : c.id = i
    · subst h
      have he : eraseById c.id (c :: rest) = rest := by simp [eraseById]
      rw [he]
      exact hnodup.1
    · simp [eraseById, h, ih hnodup.2, Ne.symm h]

theorem not_mem_replay (reg : List TCPConnecter) (t : List Op) (i : Nat)
    (h : i ∉ reg.map TCPConnecter.id) :
    i ∉ (replay reg t).map TCPConnecter.id :=
  fun hin => h (((replay_sublist reg t).map TCPConnecter.id).subset hin)

theorem replay_nodup (reg : List TCPConnecter) (t : List Op)
    (h : (reg.map TCPConnecter.id).Nodup) :
    ((replay reg t).map TCPConnecter.id).Nodup :=
  h.sublist ((replay_sublist reg t).map TCPConnecter.id)

theorem not_mem_replay_after_erase (reg : List TCPConnecter) (u1 u2 : List Op)
    (i : Nat) (hnodup : (reg.map TCPConnecter.id).Nodup) :
    i ∉ (replay reg (u1 ++ Op.erase i :: u2)).map TCPConnecter.id := by
  have h1 : replay reg (u1 ++ Op.erase i :: u2)
      = replay (eraseById i (replay reg u1)) u2 := by
    simp [replay, List.foldl_append, applyOp]
  rw [h1]
  exact not_mem_replay _ u2 i
    (not_mem_eraseById i (replay reg u1) (replay_nodup reg u1 hnodup))

theorem reapOps_split_call (c : TCPConnecter) (i : Nat) (t1 w : List Op) (op : Op)
    (heq : reapOps c = t1 ++ op :: w) (hcall : Op.isCallFor i op = true) :
    t1 = [Op.erase c.id] ∧ i = c.id := by
  cases op with
  | erase j => simp [Op.isCallFor] at hcall
  | close j => simp [Op.isCallFor] at hcall
  | delete j => simp [Op.isCallFor] at hcall
  | callOnConnect j s =>
    have hj : j = i := by simpa [Op.isCallFor] using hcall
    subst hj
    cases hs : c.sock <;> cases hc : c.connected <;> cases ha : c.aborted <;>
      cases hk : c.killed <;>
      simp only [reapOps, closeOps, hs, hc, ha, hk, Bool.true_or, Bool.or_true,
        Bool.false_or, Bool.or_false, Bool.and_true, Bool.and_false, if_true,
        if_false, Bool.true_and, Bool.false_and, ite_true, ite_false,
        Bool.false_eq_true, reduceIte] at heq <;>
      rcases t1 with _ | ⟨x, _ | ⟨y, _ | ⟨z, t1'⟩⟩⟩ <;>
      simp_all
    all_goals (obtain ⟨h1, h2⟩ := heq; subst h1; simp_all)
  | callOnFailure j =>
    have hj : j = i := by simpa [Op.isCallFor] using hcall
    subst hj
    cases hs : c.sock <;> cases hc : c.connected <;> cases ha : c.aborted <;>
      cases hk : c.killed <;>
      simp only [reapOps, closeOps, hs, hc, ha, hk, Bool.true_or, Bool.or_true,
        Bool.false_or, Bool.or_false, Bool.and_true, Bool.and_false, if_true,
        if_false, Bool.true_and, Bool.false_and, ite_true, ite_false,
        Bool.false_eq_true, reduceIte] at heq <;>
      rcases t1 with _ | ⟨x, _ | ⟨y, _ | ⟨z, t1'⟩⟩⟩ <;>
      simp_all
    all_goals (obtain ⟨h1, h2⟩ := heq; subst h1; simp_all)

theorem CheckCallbacks_call_preceded_by_erase (reg : List TCPConnecter) (i : Nat)
    (t1 t2 : List Op) (op : Op)
    (hsplit : (TCPConnecter.CheckCallbacks reg).2 = t1 ++ op :: t2)
    (hcall : Op.isCallFor i op = true) :
    ∃ u1 u2, t1 = u1 ++ Op.erase i :: u2 := by
  induction reg generalizing t1 t2 with
  | nil =>
    simp [TCPConnecter.CheckCallbacks] at hsplit
  | cons cur rest ih =>
    rw [CheckCallbacks_snd_cons] at hsplit
    rcases List.append_eq_append_iff.mp hsplit with ⟨w, hw1, hw2⟩ | ⟨w, hw1, hw2⟩
    · obtain ⟨u1, u2, hu⟩ := ih w t2 hw2
      exact ⟨reapOps cur ++ u1, u2, by simp [hw1, hu]⟩
    · rcases w with _ | ⟨wop, w'⟩
      · obtain ⟨u1, u2, hu⟩ := ih [] t2 (by simpa using hw2.symm)
        simp at hu
      · simp only [List.cons_append] at hw2
        obtain ⟨rfl, hw3⟩ := List.cons.inj hw2
        obtain ⟨ht1, hi⟩ := reapOps_split_call cur i t1 w' op hw1 hcall
        exact ⟨[], [], by simp [ht1, hi]⟩

/-- C10: within a poll call, the dispatcher erases an attempt from the
registry before invoking its outcome handler: every handler-invocation event
in the trace is preceded by the erase event for the same attempt, and
replaying the trace prefix up to the handler call shows the attempt is no
longer registered at the moment its handler runs, so re-entrant handlers
cannot make the completed attempt be visited again. -/
theorem checkCallbacks_erase_precedes_handler (reg : List TCPConnecter) (i : Nat)
    (t1 t2 : List Op) (op : Op)
    (hnodup : (reg.map TCPConnecter.id).Nodup)
    (hsplit : (TCPConnecter.CheckCallbacks reg).2 = t1 ++ op :: t2)
    (hcall : Op.isCallFor i op = true) :
    Op.erase i ∈ t1 ∧ i ∉ (replay reg t1).map TCPConnecter.id := by
  obtain ⟨u1, u2, hu⟩ :=
    CheckCallbacks_call_preceded_by_erase reg i t1 t2 op hsplit hcall
  subst hu
  exact ⟨by simp, not_mem_replay_after_erase reg u1 u2 i hnodup⟩

/-- A connected, unkilled attempt, used as a concrete input for witnesses. -/
def wConnected : TCPConnecter := ⟨0, true, false, false, Socket.valid 7, 21⟩

/-- A connected but killed attempt, used as a concrete input for witnesses. -/
def wKilled : TCPConnecter := ⟨1, true, false, true, Socket.valid 8, 22⟩

/-- A pending killed attempt, used as a concrete input for witnesses. -/
def wPending : TCPConnecter := ⟨2, false, false, true, Socket.invalid, 23⟩

theorem checkCallbacks_notifies_exactly_once_witness :
    (TCPConnecter.CheckCallbacks [wConnected]).2.countP (Op.isCallFor wConnected.id) = 1
    ∧ (∃ pre post, (TCPConnecter.CheckCallbacks [wConnected]).2
        = pre ++ Op.erase wConnected.id
            :: (if wConnected.connected then
                  Op.callOnConnect wConnected.id wConnected.sock
                else Op.callOnFailure wConnected.id)
            :: Op.delete wConnected.id :: post)
    ∧ wConnected.id
        ∉ ((TCPConnecter.CheckCallbacks [wConnected]).1.map TCPConnecter.id) :=
  checkCallbacks_notifies_exactly_once [wConnected] wConnected (by decide)
    (by decide) (Or.inl (by decide)) (by decide)

theorem checkCallbacks_killed_silent_witness :
    (TCPConnecter.CheckCallbacks [wKilled]).2.countP (Op.isCallFor wKilled.id) = 0
    ∧ (∃ pre post, (TCPConnecter.CheckCallbacks [wKilled]).2
        = pre ++ Op.erase wKilled.id :: closeOps wKilled.sock
            ++ Op.delete wKilled.id :: post)
    ∧ wKilled.id ∉ ((TCPConnecter.CheckCallbacks [wKilled]).1.map TCPConnecter.id) :=
  checkCallbacks_killed_silent [wKilled] wKilled (by decide) (by decide)
    (Or.inl (by decide)) (by decide)

theorem checkCallbacks_pending_untouched_witness :
    wPending ∈ (TCPConnecter.CheckCallbacks [wPending]).1
    ∧ (TCPConnecter.CheckCallbacks [wPending]).2.countP (Op.isEraseFor wPending.id) = 0
    ∧ (TCPConnecter.CheckCallbacks [wPending]).2.countP
        (fun op => op == Op.delete wPending.id) = 0
    ∧ (TCPConnecter.CheckCallbacks [wPending]).2.countP (Op.isCallFor wPending.id) = 0 :=
  checkCallbacks_pending_untouched [wPending] wPending (by decide) (by decide)
    (by decide) (by decide)

theorem checkCallbacks_erase_precedes_handler_witness :
    Op.erase 0 ∈ [Op.erase 0]
    ∧ 0 ∉ (replay [wConnected] [Op.erase 0]).map TCPConnecter.id :=
  checkCallbacks_erase_precedes_handler [wConnected] 0 [Op.erase 0] [Op.delete 0]
    (Op.callOnConnect 0 (Socket.valid 7)) (by decide) (by decide) (by decide)
